import Mathlib

/-!
Verification development for the `terraform-provider-jellyfin` repository.

The development shallowly embeds the Go sources:
- `internal/client/client.go`: the Jellyfin HTTP API client (`Client`,
  `NewClient`, `NewClientWithAuth`, `NewClientWithAuthAndConfig`, `doRequest`,
  `GetKeys`, `GetKey`, `CreateKey`, `DeleteKey`, `FindKeyByAppName`);
- `internal/provider/api_key_resource.go`: the resource-layer `Create`
  operation (snapshot / create / re-list / diff);
- `internal/provider/api_key_data_source.go`: the data-source `Read`
  operation (lookup by app name or access token).

HTTP effects are modelled by explicit state passing over `HttpState`: a list
of pending transport results that sequential requests consume in order, plus
the list of requests issued so far.  A response body is modelled as its raw
text (used verbatim in error messages) together with a `BodyShape` that says
whether the body decodes as the JSON shape the call site expects.  Request
bodies are not modelled; no claim concerns them.  The wrapped text of a Go
JSON decoding error is abstracted to a fixed message.
-/

namespace Jellyfin

/-- Default client identification for Jellyfin (`DefaultClientName`). -/
def DefaultClientName : String := "Terraform"

/-- Default client identification for Jellyfin (`DefaultDeviceName`). -/
def DefaultDeviceName : String := "Terraform Provider"

/-- Default client identification for Jellyfin (`DefaultDeviceID`). -/
def DefaultDeviceID : String := "terraform-provider-jellyfin"

/-- Default client identification for Jellyfin (`DefaultClientVersion`). -/
def DefaultClientVersion : String := "1.0.0"

/-- Go struct `APIKey` represents a Jellyfin API key.  The provider-layer source
revision (`api_key_resource.go`) additionally reads an `Id` field (Go
`int64`) on each key; we include it so the resource code can be embedded.
The client operations never inspect `Id`. -/
structure APIKey where
  Id : Int
  AccessToken : String
  AppName : String
  DateCreated : String
deriving Repr, DecidableEq

/-- Go struct `APIKeyQueryResult` represents the response from `GetKeys`. -/
structure APIKeyQueryResult where
  Items : List APIKey
  TotalRecordCount : Int
  StartIndex : Int
deriving Repr, DecidableEq

/-- Go struct `AuthenticateResponse` represents the response from
`AuthenticateByName` (nested `User`/`SessionInfo` objects flattened). -/
structure AuthenticateResponse where
  AccessToken : String
  ServerId : String
  UserId : String
  UserName : String
  SessionId : String
deriving Repr, DecidableEq

/-- Go struct `ClientConfig` holds configuration for creating a new client. -/
structure ClientConfig where
  Endpoint : String
  ClientName : String
  DeviceName : String
  DeviceID : String
  ClientVersion : String
deriving Repr, DecidableEq

/-- Go struct `Client` is a Jellyfin API client (the `httpClient` transport field is
represented by the ambient `HttpState`). -/
structure Client where
  endpoint : String
  accessToken : String
deriving Repr, DecidableEq

/-! ### Go string helpers -/

/-- Go `strings.TrimSuffix(s, "/")`: drops one trailing `/` when present,
otherwise returns the string unchanged. -/
def goTrimSuffixSlash (s : String) : String :=
  if s.data.getLast? = some '/' then String.mk s.data.dropLast else s

/-- Uppercase hexadecimal digit of a value below 16, as a byte
(Go's `upperhex` table). -/
def upperHexDigit (n : Nat) : Nat :=
  if n < 10 then 48 + n else 55 + n

/-- Go `net/url` byte class: ASCII alphanumerics (never escaped). -/
def isGoAlphaNum (c : Nat) : Bool :=
  decide ((97 ≤ c ∧ c ≤ 122) ∨ (65 ≤ c ∧ c ≤ 90) ∨ (48 ≤ c ∧ c ≤ 57))

/-- Go `net/url` byte class: the RFC 3986 unreserved marks
`-`, `_`, `.`, `~` (never escaped). -/
def isGoMark (c : Nat) : Bool :=
  decide (c = 45 ∨ c = 95 ∨ c = 46 ∨ c = 126)

/-- Go `net/url` byte class: the RFC 3986 reserved characters
`$ & + , / : ; = ? @`. -/
def isGoReserved (c : Nat) : Bool :=
  decide (c = 36 ∨ c = 38 ∨ c = 43 ∨ c = 44 ∨ c = 47 ∨
          c = 58 ∨ c = 59 ∨ c = 61 ∨ c = 63 ∨ c = 64)

/-- Go `shouldEscape(c, encodeQueryComponent)`: in a query component every
byte except alphanumerics and the unreserved marks is escaped. -/
def shouldEscapeQueryByte (c : Nat) : Bool :=
  !(isGoAlphaNum c || isGoMark c)

/-- Go `shouldEscape(c, encodePathSegment)`: alphanumerics and marks pass;
of the reserved set only `/ ; , ?` are escaped; everything else is
escaped. -/
def shouldEscapePathSegmentByte (c : Nat) : Bool :=
  if isGoAlphaNum c then false
  else if isGoMark c then false
  else if isGoReserved c then decide (c = 47 ∨ c = 59 ∨ c = 44 ∨ c = 63)
  else true

/-- Go `url.QueryEscape` on the UTF-8 bytes of a string: space becomes
`+`, escaped bytes become `%XX` with uppercase hex, the rest pass
through. -/
def queryEscapeBytes : List Nat → List Nat
  | [] => []
  | c :: rest =>
    (if c = 32 then [43]
     else if shouldEscapeQueryByte c then [37, upperHexDigit (c / 16), upperHexDigit (c % 16)]
     else [c]) ++ queryEscapeBytes rest

/-- Go `url.PathEscape` on the UTF-8 bytes of a string: escaped bytes
become `%XX` with uppercase hex, the rest pass through (space is escaped
to `%20` in this mode). -/
def pathEscapeBytes : List Nat → List Nat
  | [] => []
  | c :: rest =>
    (if shouldEscapePathSegmentByte c then [37, upperHexDigit (c / 16), upperHexDigit (c % 16)]
     else [c]) ++ pathEscapeBytes rest

/-- Go `ishex`: ASCII hexadecimal digit bytes. -/
def isHexByte (c : Nat) : Bool :=
  decide ((48 ≤ c ∧ c ≤ 57) ∨ (97 ≤ c ∧ c ≤ 102) ∨ (65 ≤ c ∧ c ≤ 70))

/-- Go `unhex`: value of a hexadecimal digit byte. -/
def unhexByte (c : Nat) : Nat :=
  if 48 ≤ c ∧ c ≤ 57 then c - 48
  else if 97 ≤ c ∧ c ≤ 102 then c - 97 + 10
  else if 65 ≤ c ∧ c ≤ 70 then c - 65 + 10
  else 0

/-- Standard query-component decoding (Go `url.QueryUnescape`): `+`
becomes space, `%XX` with two hexadecimal digits becomes the encoded
byte (otherwise decoding fails), other bytes pass through. -/
def unescapeQueryBytes : List Nat → Option (List Nat)
  | [] => some []
  | c :: rest =>
    if c = 43 then (unescapeQueryBytes rest).map fun bs => 32 :: bs
    else if c = 37 then
      match rest with
      | h :: l :: rest2 =>
        if isHexByte h ∧ isHexByte l then
          (unescapeQueryBytes rest2).map fun bs => (unhexByte h * 16 + unhexByte l) :: bs
        else none
      | _ => none
    else (unescapeQueryBytes rest).map fun bs => c :: bs

/-- UTF-8 encoding of a single character, as byte values. -/
def utf8BytesOfChar (c : Char) : List Nat :=
  if c.toNat < 128 then [c.toNat]
  else if c.toNat < 2048 then [192 + c.toNat / 64, 128 + c.toNat % 64]
  else if c.toNat < 65536 then
    [224 + c.toNat / 4096, 128 + (c.toNat / 64) % 64, 128 + c.toNat % 64]
  else
    [240 + c.toNat / 262144, 128 + (c.toNat / 4096) % 64,
     128 + (c.toNat / 64) % 64, 128 + c.toNat % 64]

/-- The UTF-8 bytes of a string (Go strings are byte sequences; Go source
literals hold the UTF-8 encoding). -/
def stringUTF8Bytes (s : String) : List Nat :=
  s.data.flatMap utf8BytesOfChar

/-- Render a list of ASCII byte values back into a string (escaping only
produces ASCII bytes). -/
def renderAsciiBytes (bs : List Nat) : String :=
  String.mk (bs.map fun b => Char.ofNat b)

/-- Go `url.QueryEscape` as a string transformer. -/
def goQueryEscape (s : String) : String :=
  renderAsciiBytes (queryEscapeBytes (stringUTF8Bytes s))

/-- Go `url.PathEscape` as a string transformer. -/
def goPathEscape (s : String) : String :=
  renderAsciiBytes (pathEscapeBytes (stringUTF8Bytes s))

/-! ### HTTP effect model -/

/-- What decoding a response body yields at the call site: either it is
not valid JSON for the expected shape, or it decodes as an
authentication response, or as a key-list query result. -/
inductive BodyShape where
  | undecodable
  | authPayload (a : AuthenticateResponse)
  | keysPayload (r : APIKeyQueryResult)
deriving Repr, DecidableEq

/-- An HTTP response: status code, raw body text (used verbatim in error
messages), and the decoded shape of the body. -/
structure HttpResponse where
  statusCode : Nat
  bodyText : String
  shape : BodyShape
deriving Repr, DecidableEq

/-- Outcome of one transport exchange: a network-level failure
(DNS, connection refused, timeout, cancellation) or a response. -/
inductive TransportResult where
  | netFailure (msg : String)
  | response (resp : HttpResponse)
deriving Repr, DecidableEq

/-- An outbound HTTP request as the model records it. -/
structure HttpRequest where
  method : String
  url : String
  headers : List (String × String)
deriving Repr, DecidableEq

/-- The transport state threaded through every operation: responses still
pending (consumed in order, one per request) and the requests issued so
far. -/
structure HttpState where
  pending : List TransportResult
  sent : List HttpRequest
deriving Repr, DecidableEq

/-- Record an outbound request and consume the next pending transport
result; an exhausted trace behaves as a network failure. -/
def HttpState.exchange (req : HttpRequest) (s : HttpState) : TransportResult × HttpState :=
  match s.pending with
  | [] => (.netFailure "no response", { pending := [], sent := s.sent ++ [req] })
  | r :: rest => (r, { pending := rest, sent := s.sent ++ [req] })

/-- Value of a named header on a request, if set. -/
def HttpRequest.headerValue (r : HttpRequest) (name : String) : Option String :=
  (r.headers.find? fun h => h.fst == name).map Prod.snd

/-! ### Client construction -/

/-- Function `NewClient` creates a new Jellyfin API client with a pre-existing
access token, stripping a trailing slash from the endpoint.  No network
call, no validation. -/
def NewClient (endpoint accessToken : String) : Client :=
  { endpoint := goTrimSuffixSlash endpoint, accessToken := accessToken }

/-- The `MediaBrowser` authorization header for unauthenticated requests,
carrying the four client-identification fields. -/
def mediaBrowserAuthHeader (clientName deviceName deviceID clientVersion : String) : String :=
  "MediaBrowser Client=\"" ++ clientName ++ "\", Device=\"" ++ deviceName ++
    "\", DeviceId=\"" ++ deviceID ++ "\", Version=\"" ++ clientVersion ++ "\""

/-- Function `NewClientWithAuthAndConfig` creates a new Jellyfin API client by
authenticating with username and password, with custom client
configuration (`nil` config modelled as `none`).  The JSON marshalling of
the auth request body always succeeds in Go for this struct and is not
modelled; request construction from the fixed template likewise cannot
fail.  The username and password only feed the request body, which the
model does not record. -/
def NewClientWithAuthAndConfig (endpoint _username _password : String)
    (config : Option ClientConfig) (s : HttpState) :
    Except String Client × HttpState :=
  let endpoint := goTrimSuffixSlash endpoint
  let clientName := match config with
    | none => DefaultClientName
    | some cfg => if cfg.ClientName ≠ "" then cfg.ClientName else DefaultClientName
  let deviceName := match config with
    | none => DefaultDeviceName
    | some cfg => if cfg.DeviceName ≠ "" then cfg.DeviceName else DefaultDeviceName
  let deviceID := match config with
    | none => DefaultDeviceID
    | some cfg => if cfg.DeviceID ≠ "" then cfg.DeviceID else DefaultDeviceID
  let clientVersion := match config with
    | none => DefaultClientVersion
    | some cfg => if cfg.ClientVersion ≠ "" then cfg.ClientVersion else DefaultClientVersion
  let req : HttpRequest :=
    { method := "POST"
      url := endpoint ++ "/Users/AuthenticateByName"
      headers := [("Content-Type", "application/json"),
                  ("Authorization",
                   mediaBrowserAuthHeader clientName deviceName deviceID clientVersion)] }
  match s.exchange req with
  | (.netFailure msg, s1) => (.error ("failed to authenticate: " ++ msg), s1)
  | (.response resp, s1) =>
    if resp.statusCode ≠ 200 then
      (.error ("authentication failed with status " ++ toString resp.statusCode ++
               ": " ++ resp.bodyText), s1)
    else
      match resp.shape with
      | .authPayload a =>
        if a.AccessToken = "" then
          (.error "authentication succeeded but no access token returned", s1)
        else
          (.ok { endpoint := endpoint, accessToken := a.AccessToken }, s1)
      | _ => (.error "failed to decode auth response", s1)

/-- Function `NewClientWithAuth` creates a new Jellyfin API client by
authenticating with username and password (nil configuration). -/
def NewClientWithAuth (endpoint username password : String) (s : HttpState) :
    Except String Client × HttpState :=
  NewClientWithAuthAndConfig endpoint username password none s

/-! ### Authorized requests and key operations -/

/-- Method `doRequest` makes an HTTP request to the Jellyfin API, attaching the
`MediaBrowser Token` authorization header. -/
def Client.doRequest (c : Client) (method path : String) (s : HttpState) :
    Except String HttpResponse × HttpState :=
  let req : HttpRequest :=
    { method := method
      url := c.endpoint ++ path
      headers := [("Authorization", "MediaBrowser Token=\"" ++ c.accessToken ++ "\"")] }
  match s.exchange req with
  | (.netFailure msg, s1) => (.error ("failed to execute request: " ++ msg), s1)
  | (.response resp, s1) => (.ok resp, s1)

/-- Method `GetKeys` retrieves all API keys. -/
def Client.GetKeys (c : Client) (s : HttpState) :
    Except String APIKeyQueryResult × HttpState :=
  match c.doRequest "GET" "/Auth/Keys" s with
  | (.error e, s1) => (.error e, s1)
  | (.ok resp, s1) =>
    if resp.statusCode ≠ 200 then
      (.error ("API request failed with status " ++ toString resp.statusCode ++
               ": " ++ resp.bodyText), s1)
    else
      match resp.shape with
      | .keysPayload r => (.ok r, s1)
      | _ => (.error "failed to decode response", s1)

/-- Method `GetKey` retrieves a specific API key by its access token: `GetKeys`,
then a linear scan returning the first item whose `AccessToken` matches,
or no value (and no error) when none matches. -/
def Client.GetKey (c : Client) (accessToken : String) (s : HttpState) :
    Except String (Option APIKey) × HttpState :=
  match c.GetKeys s with
  | (.error e, s1) => (.error e, s1)
  | (.ok result, s1) =>
    (.ok (result.Items.find? fun key => key.AccessToken == accessToken), s1)

/-- Method `GetKeyByAccessToken` is the name the provider-layer source revision
uses for `Client.GetKey`. -/
def Client.GetKeyByAccessToken (c : Client) (accessToken : String) (s : HttpState) :
    Except String (Option APIKey) × HttpState :=
  c.GetKey accessToken s

/-- Method `CreateKey` creates a new API key named by `appName`
(`POST /Auth/Keys?app=<query-escaped appName>`); success is status 200
or 204. -/
def Client.CreateKey (c : Client) (appName : String) (s : HttpState) :
    Except String Unit × HttpState :=
  let path := "/Auth/Keys?app=" ++ goQueryEscape appName
  match c.doRequest "POST" path s with
  | (.error e, s1) => (.error e, s1)
  | (.ok resp, s1) =>
    if resp.statusCode ≠ 204 ∧ resp.statusCode ≠ 200 then
      (.error ("API request failed with status " ++ toString resp.statusCode ++
               ": " ++ resp.bodyText), s1)
    else (.ok (), s1)

/-- Method `DeleteKey` deletes an API key by its access token
(`DELETE /Auth/Keys/<path-escaped token>`); success is status 200 or
204. -/
def Client.DeleteKey (c : Client) (accessToken : String) (s : HttpState) :
    Except String Unit × HttpState :=
  let path := "/Auth/Keys/" ++ goPathEscape accessToken
  match c.doRequest "DELETE" path s with
  | (.error e, s1) => (.error e, s1)
  | (.ok resp, s1) =>
    if resp.statusCode ≠ 204 ∧ resp.statusCode ≠ 200 then
      (.error ("API request failed with status " ++ toString resp.statusCode ++
               ": " ++ resp.bodyText), s1)
    else (.ok (), s1)

/-- Method `FindKeyByAppName` finds an API key by its application name:
`GetKeys`, then a linear scan returning the first item whose `AppName`
matches, or no value (and no error) when none matches. -/
def Client.FindKeyByAppName (c : Client) (appName : String) (s : HttpState) :
    Except String (Option APIKey) × HttpState :=
  match c.GetKeys s with
  | (.error e, s1) => (.error e, s1)
  | (.ok result, s1) =>
    (.ok (result.Items.find? fun key => key.AppName == appName), s1)

/-! ### Resource layer (`api_key_resource.go`) -/

/-- Structure `APIKeyResourceModel` describes the resource data model written to
Terraform state (string attribute values). -/
structure APIKeyResourceModel where
  ID : String
  AppName : String
  AccessToken : String
  DateCreated : String
deriving Repr, DecidableEq

/-- Outcome of a resource-layer operation: either a diagnostics error was
added and the operation returned without writing state, or the state
record that was written. -/
inductive CreateOutcome where
  | failure (msg : String)
  | success (state : APIKeyResourceModel)
deriving Repr, DecidableEq

/-- Operation `APIKeyResource.Create`: lists the existing keys, snapshots their
`Id`s, calls `CreateKey`, re-lists, and takes as the created key the
first key of the new list whose `Id` is absent from the snapshot and
whose `AppName` equals the requested one; any failure (including not
finding such a key) adds an error diagnostic and writes no state.  The
plan supplies `appName`; the written state keeps the plan's `AppName` and
sets `ID` and `AccessToken` to the found key's `AccessToken` and
`DateCreated` to its `DateCreated`. -/
def APIKeyResource.Create (c : Client) (appName : String) (s : HttpState) :
    CreateOutcome × HttpState :=
  match c.GetKeys s with
  | (.error e, s1) => (.failure ("Unable to list existing API keys: " ++ e), s1)
  | (.ok existingKeys, s1) =>
    let existingIDs : List Int := existingKeys.Items.map fun key => key.Id
    match c.CreateKey appName s1 with
    | (.error e, s2) => (.failure ("Unable to create API key: " ++ e), s2)
    | (.ok _, s2) =>
      match c.GetKeys s2 with
      | (.error e, s3) => (.failure ("Unable to list API keys after creation: " ++ e), s3)
      | (.ok newKeys, s3) =>
        match newKeys.Items.find? fun key =>
            !(existingIDs.contains key.Id) && key.AppName == appName with
        | none => (.failure "Unable to find the newly created API key", s3)
        | some createdKey =>
          (.success { ID := createdKey.AccessToken
                      AppName := appName
                      AccessToken := createdKey.AccessToken
                      DateCreated := createdKey.DateCreated }, s3)

/-! ### Data-source layer (`api_key_data_source.go`) -/

/-- A Terraform framework string attribute value: null, unknown, or a
concrete string. -/
inductive TFString where
  | null
  | unknown
  | value (s : String)
deriving Repr, DecidableEq

/-- Go `types.String.ValueString()`: the concrete value, or `""` for null
and unknown. -/
def TFString.valueString : TFString → String
  | .value s => s
  | _ => ""

/-- Go test `!v.IsNull() && !v.IsUnknown()`: the attribute carries a concrete
value. -/
def TFString.isKnownValue : TFString → Bool
  | .value _ => true
  | _ => false

/-- Structure `APIKeyDataSourceModel` as written to state on a successful read. -/
structure APIKeyDataSourceModel where
  ID : String
  AppName : String
  AccessToken : String
  DateCreated : String
deriving Repr, DecidableEq

/-- Outcome of the data-source read: a diagnostics error (title and
detail, no state written) or the state record. -/
inductive ReadOutcome where
  | failure (title detail : String)
  | success (state : APIKeyDataSourceModel)
deriving Repr, DecidableEq

/-- Operation `APIKeyDataSource.Read`: requires at least one of `app_name` /
`access_token` to carry a value, erring with a `Missing Required
Attribute` diagnostic when neither does; looks up by access token when
one is supplied (also when both are), otherwise by app name; maps a
client error to a `Client Error` diagnostic, absence to an `API Key Not
Found` diagnostic, and a found key to the populated state record. -/
def APIKeyDataSource.Read (c : Client) (appName accessToken : TFString)
    (s : HttpState) : ReadOutcome × HttpState :=
  let hasAppName := appName.isKnownValue
  let hasAccessToken := accessToken.isKnownValue
  if !hasAppName && !hasAccessToken then
    (.failure "Missing Required Attribute"
      "Either 'app_name' or 'access_token' must be provided to look up an API key.", s)
  else
    let lookupResult :=
      if hasAccessToken then c.GetKeyByAccessToken accessToken.valueString s
      else c.FindKeyByAppName appName.valueString s
    match lookupResult with
    | (.error e, s1) => (.failure "Client Error" ("Unable to read API key: " ++ e), s1)
    | (.ok none, s1) => (.failure "API Key Not Found" "The specified API key was not found.", s1)
    | (.ok (some key), s1) =>
      (.success { ID := key.AccessToken
                  AppName := key.AppName
                  AccessToken := key.AccessToken
                  DateCreated := key.DateCreated }, s1)

/-! ### Abbreviations used by the theorems -/

/-- A transport result carrying a status-200 response whose body decodes
as the given key-list query result, with the given raw body text. -/
def okKeys (bodyText : String) (r : APIKeyQueryResult) : TransportResult :=
  .response { statusCode := 200, bodyText := bodyText, shape := .keysPayload r }

/-- A fixed sample client for concrete evaluations. -/
def sampleClient : Client :=
  { endpoint := "http://localhost:8096", accessToken := "test-api-key" }

/-- A sample trace holding one successful authentication response, used by
witnesses. -/
def sampleAuthTrace : HttpState :=
  { pending := [TransportResult.response
      (HttpResponse.mk 200 ""
        (BodyShape.authPayload (AuthenticateResponse.mk "tok" "" "" "" "")))]
    sent := [] }

/-! ### Helper lemmas -/

theorem isHex_unhex_upperHexDigit {n : Nat} (h : n < 16) :
    isHexByte (upperHexDigit n) = true ∧ unhexByte (upperHexDigit n) = n := by
  interval_cases n <;> decide

theorem upperHexDigit_ne_47 (n : Nat) : upperHexDigit n ≠ 47 := by
  unfold upperHexDigit
  split <;> omega

theorem shouldEscapeQueryByte_false_facts {c : Nat}
    (h : shouldEscapeQueryByte c = false) : c ≠ 37 ∧ c ≠ 43 ∧ c ≠ 32 := by
  unfold shouldEscapeQueryByte isGoAlphaNum isGoMark at h
  simp at h
  omega

theorem shouldEscapePathSegmentByte_false_ne_47 {c : Nat}
    (h : shouldEscapePathSegmentByte c = false) : c ≠ 47 := by
  intro hc
  subst hc
  exact absurd h (by decide)

theorem unescape_queryEscape (bs : List Nat) (h : ∀ b ∈ bs, b < 256) :
    unescapeQueryBytes (queryEscapeBytes bs) = some bs := by
  induction bs with
  | nil => rfl
  | cons c rest ih =>
    have hc : c < 256 := h c (List.mem_cons_self c rest)
    have hrest : unescapeQueryBytes (queryEscapeBytes rest) = some rest :=
      ih fun b hb => h b (List.mem_cons_of_mem c hb)
    rw [queryEscapeBytes]
    by_cases h32 : c = 32
    · subst h32
      rw [if_pos rfl, List.singleton_append, unescapeQueryBytes.eq_def]
      simp [hrest]
    · by_cases hesc : shouldEscapeQueryByte c = true
      · rw [if_neg h32, if_pos hesc]
        have h1 := isHex_unhex_upperHexDigit (show c / 16 < 16 by omega)
        have h2 := isHex_unhex_upperHexDigit (show c % 16 < 16 by omega)
        rw [List.cons_append, List.cons_append, List.singleton_append,
          unescapeQueryBytes.eq_def]
        simp [h1.1, h2.1, h1.2, h2.2, hrest]
        omega
      · rw [if_neg h32, if_neg hesc, List.singleton_append, unescapeQueryBytes.eq_def]
        obtain ⟨h37, h43, _⟩ :=
          shouldEscapeQueryByte_false_facts (by simpa using hesc)
        simp [h43, h37, hrest]

theorem pathEscapeBytes_no_slash (bs : List Nat) : (47 : Nat) ∉ pathEscapeBytes bs := by
  induction bs with
  | nil => simp [pathEscapeBytes]
  | cons c rest ih =>
    rw [pathEscapeBytes]
    intro hmem
    rcases List.mem_append.mp hmem with hin | hin
    · by_cases hesc : shouldEscapePathSegmentByte c = true
      · rw [if_pos hesc] at hin
        simp only [List.mem_cons, List.not_mem_nil, or_false] at hin
        rcases hin with h | h | h
        · omega
        · exact upperHexDigit_ne_47 _ h.symm
        · exact upperHexDigit_ne_47 _ h.symm
      · rw [if_neg hesc] at hin
        simp only [List.mem_cons, List.not_mem_nil, or_false] at hin
        exact shouldEscapePathSegmentByte_false_ne_47 (by simpa using hesc) hin.symm
    · exact ih hin

theorem char_toNat_lt (c : Char) : c.toNat < 1114112 := by
  have h := c.valid
  simp [UInt32.isValidChar, Nat.isValidChar] at h
  have : c.toNat = c.val.toNat := rfl
  rcases h with h | ⟨h1, h2⟩ <;> omega

theorem utf8BytesOfChar_lt (ch : Char) : ∀ b ∈ utf8BytesOfChar ch, b < 256 := by
  intro b hb
  have hn := char_toNat_lt ch
  unfold utf8BytesOfChar at hb
  split_ifs at hb <;> simp only [List.mem_cons, List.not_mem_nil, or_false] at hb <;>
    omega

theorem stringUTF8Bytes_lt (s : String) : ∀ b ∈ stringUTF8Bytes s, b < 256 := by
  intro b hb
  unfold stringUTF8Bytes at hb
  rw [List.mem_flatMap] at hb
  obtain ⟨c, _, hc⟩ := hb
  exact utf8BytesOfChar_lt c b hc

theorem goTrimSuffixSlash_concat (s : String) : goTrimSuffixSlash (s ++ "/") = s := by
  unfold goTrimSuffixSlash
  have h : (s ++ "/").data = s.data ++ ['/'] := by
    rw [String.data_append]
  rw [h, if_pos (List.getLast?_concat _), List.dropLast_concat]

theorem goTrimSuffixSlash_of_no_slash {s : String} (h : s.data.getLast? ≠ some '/') :
    goTrimSuffixSlash s = s := by
  unfold goTrimSuffixSlash
  rw [if_neg h]

theorem doRequest_sent (c : Client) (m path : String) (s : HttpState) :
    ((c.doRequest m path s).snd).sent
      = s.sent ++ [{ method := m, url := c.endpoint ++ path,
                     headers := [("Authorization",
                       "MediaBrowser Token=\"" ++ c.accessToken ++ "\"")] }] := by
  rcases s with ⟨pending, sent⟩
  cases pending with
  | nil => simp [Client.doRequest, HttpState.exchange]
  | cons t rest => cases t <;> simp [Client.doRequest, HttpState.exchange]

/-! ### Claim theorems -/

/-- Claim C4: a single trailing slash on the configured endpoint is stripped
exactly once at client construction, by both `NewClient` and
`NewClientWithAuthAndConfig` (hence `NewClientWithAuth`); an endpoint
without a trailing slash is stored unchanged; and `doRequest` builds every
request URL as the literal concatenation of the stored endpoint and the
request path, introducing no slash of its own. -/
theorem newClient_strips_one_trailing_slash :
    (∀ e tok, e.data.getLast? ≠ some '/' → (NewClient e tok).endpoint = e)
    ∧ (∀ e tok, (NewClient (e ++ "/") tok).endpoint = e)
    ∧ (∀ e u p cfg s cl, (NewClientWithAuthAndConfig e u p cfg s).fst = .ok cl →
        cl.endpoint = goTrimSuffixSlash e)
    ∧ (∀ e, goTrimSuffixSlash (e ++ "/") = e)
    ∧ (∀ e, e.data.getLast? ≠ some '/' → goTrimSuffixSlash e = e)
    ∧ (∀ (c : Client) m path s, ((c.doRequest m path s).snd).sent
        = s.sent ++ [{ method := m, url := c.endpoint ++ path,
                       headers := [("Authorization",
                         "MediaBrowser Token=\"" ++ c.accessToken ++ "\"")] }]) := by
  refine ⟨?_, ?_, ?_, ?_, ?_, ?_⟩
  · intro e tok h
    simp [NewClient, goTrimSuffixSlash_of_no_slash h]
  · intro e tok
    simp [NewClient, goTrimSuffixSlash_concat]
  · intro e u p cfg s cl h
    rcases s with ⟨pending, sent⟩
    cases pending with
    | nil => simp [NewClientWithAuthAndConfig, HttpState.exchange] at h
    | cons t rest =>
      cases t with
      | netFailure msg => simp [NewClientWithAuthAndConfig, HttpState.exchange] at h
      | response resp =>
        rcases resp with ⟨st, bt, sh⟩
        by_cases hst : st = 200
        · subst hst
          cases sh with
          | undecodable => simp [NewClientWithAuthAndConfig, HttpState.exchange] at h
          | keysPayload r => simp [NewClientWithAuthAndConfig, HttpState.exchange] at h
          | authPayload a =>
            by_cases hat : a.AccessToken = ""
            · simp [NewClientWithAuthAndConfig, HttpState.exchange, hat] at h
            · simp [NewClientWithAuthAndConfig, HttpState.exchange, hat] at h
              rw [← h]
        · simp [NewClientWithAuthAndConfig, HttpState.exchange, hst] at h
  · exact goTrimSuffixSlash_concat
  · exact fun e h => goTrimSuffixSlash_of_no_slash h
  · exact doRequest_sent

/-- Witness for the trailing-slash claim at concrete endpoints: a slashless
endpoint is stored unchanged, and an authenticating construction against a
slash-terminated endpoint stores the stripped endpoint. -/
theorem newClient_strips_one_trailing_slash_witness :
    (NewClient "http://localhost:8096" "token").endpoint = "http://localhost:8096"
    ∧ goTrimSuffixSlash "http://h" = "http://h"
    ∧ (Client.mk "http://h" "tok").endpoint = goTrimSuffixSlash "http://h/" :=
  ⟨newClient_strips_one_trailing_slash.1 "http://localhost:8096" "token" (by decide),
   newClient_strips_one_trailing_slash.2.2.2.2.1 "http://h" (by decide),
   newClient_strips_one_trailing_slash.2.2.1 "http://h/" "u" "p" none
     sampleAuthTrace (Client.mk "http://h" "tok") rfl⟩

/-- Claim C3: `NewClientWithAuthAndConfig` (hence `NewClientWithAuth`) errs
exactly when the request cannot be sent, the HTTP status is not 200, the
body does not decode as JSON of the expected shape, or the decoded access
token is empty; on a 200 response with a non-empty token it returns a
client holding that token, and every subsequent authorized request built by
`doRequest` carries the header `Authorization: MediaBrowser
Token="<that token>"`.  (Request construction from the fixed template
cannot fail and is subsumed by the transport-failure case.) -/
theorem newClientWithAuth_error_iff_and_token_header :
    (∀ e u p cfg msg rest,
      (NewClientWithAuthAndConfig e u p cfg
          { pending := .netFailure msg :: rest, sent := [] }).fst
        = .error ("failed to authenticate: " ++ msg))
    ∧ (∀ e u p cfg resp rest,
      (NewClientWithAuthAndConfig e u p cfg
          { pending := .response resp :: rest, sent := [] }).fst
        = if resp.statusCode ≠ 200 then
            .error ("authentication failed with status " ++ toString resp.statusCode
              ++ ": " ++ resp.bodyText)
          else match resp.shape with
            | .authPayload a =>
              if a.AccessToken = "" then
                .error "authentication succeeded but no access token returned"
              else .ok { endpoint := goTrimSuffixSlash e, accessToken := a.AccessToken }
            | _ => .error "failed to decode auth response")
    ∧ (∀ (c : Client) m path s,
        ((c.doRequest m path s).snd.sent.getLast?).map
            (fun r => r.headerValue "Authorization")
          = some (some ("MediaBrowser Token=\"" ++ c.accessToken ++ "\""))) := by
  refine ⟨?_, ?_, ?_⟩
  · intro e u p cfg msg rest
    simp [NewClientWithAuthAndConfig, HttpState.exchange]
  · intro e u p cfg resp rest
    rcases resp with ⟨st, bt, sh⟩
    by_cases hst : st = 200
    · subst hst
      cases sh with
      | authPayload a =>
        by_cases hat : a.AccessToken = "" <;>
          simp [NewClientWithAuthAndConfig, HttpState.exchange, hat]
      | undecodable => simp [NewClientWithAuthAndConfig, HttpState.exchange]
      | keysPayload r => simp [NewClientWithAuthAndConfig, HttpState.exchange]
    · simp [NewClientWithAuthAndConfig, HttpState.exchange, hst]
  · intro c m path s
    rw [doRequest_sent, List.getLast?_concat]
    simp [HttpRequest.headerValue]

theorem newClientWithAuthAndConfig_sent (e u p : String) (cfg : Option ClientConfig)
    (s : HttpState) :
    (NewClientWithAuthAndConfig e u p cfg s).snd.sent
      = s.sent ++
        [{ method := "POST",
           url := goTrimSuffixSlash e ++ "/Users/AuthenticateByName",
           headers := [("Content-Type", "application/json"),
             ("Authorization", mediaBrowserAuthHeader
               (match cfg with
                | none => DefaultClientName
                | some c2 => if c2.ClientName ≠ "" then c2.ClientName else DefaultClientName)
               (match cfg with
                | none => DefaultDeviceName
                | some c2 => if c2.DeviceName ≠ "" then c2.DeviceName else DefaultDeviceName)
               (match cfg with
                | none => DefaultDeviceID
                | some c2 => if c2.DeviceID ≠ "" then c2.DeviceID else DefaultDeviceID)
               (match cfg with
                | none => DefaultClientVersion
                | some c2 => if c2.ClientVersion ≠ "" then c2.ClientVersion
                             else DefaultClientVersion))] }] := by
  rcases s with ⟨pending, sent⟩
  cases pending with
  | nil => simp [NewClientWithAuthAndConfig, HttpState.exchange]
  | cons t rest =>
    cases t with
    | netFailure msg => simp [NewClientWithAuthAndConfig, HttpState.exchange]
    | response resp =>
      rcases resp with ⟨st, bt, sh⟩
      by_cases hst : st = 200
      · subst hst
        cases sh with
        | authPayload a =>
          by_cases hat : a.AccessToken = "" <;>
            simp [NewClientWithAuthAndConfig, HttpState.exchange, hat]
        | undecodable => simp [NewClientWithAuthAndConfig, HttpState.exchange]
        | keysPayload r => simp [NewClientWithAuthAndConfig, HttpState.exchange]
      · simp [NewClientWithAuthAndConfig, HttpState.exchange, hst]

/-- Claim C5: the authentication header built by
`NewClientWithAuthAndConfig` carries `Client="Terraform"`,
`Device="Terraform Provider"`, `DeviceId="terraform-provider-jellyfin"`,
`Version="1.0.0"` for exactly those fields whose override is empty or
absent, and the override value for each non-empty field; each field
defaults independently. -/
theorem authHeader_defaults_and_overrides :
    (∀ e u p s,
      ((NewClientWithAuthAndConfig e u p none s).snd.sent.getLast?).map
          (fun r => r.headerValue "Authorization")
        = some (some (mediaBrowserAuthHeader "Terraform" "Terraform Provider"
            "terraform-provider-jellyfin" "1.0.0")))
    ∧ (∀ e u p cfg s,
      ((NewClientWithAuthAndConfig e u p (some cfg) s).snd.sent.getLast?).map
          (fun r => r.headerValue "Authorization")
        = some (some (mediaBrowserAuthHeader
            (if cfg.ClientName = "" then "Terraform" else cfg.ClientName)
            (if cfg.DeviceName = "" then "Terraform Provider" else cfg.DeviceName)
            (if cfg.DeviceID = "" then "terraform-provider-jellyfin" else cfg.DeviceID)
            (if cfg.ClientVersion = "" then "1.0.0" else cfg.ClientVersion)))) := by
  constructor
  · intro e u p s
    rw [newClientWithAuthAndConfig_sent, List.getLast?_concat]
    simp [HttpRequest.headerValue, List.find?, DefaultClientName, DefaultDeviceName,
      DefaultDeviceID, DefaultClientVersion]
  · intro e u p cfg s
    rw [newClientWithAuthAndConfig_sent, List.getLast?_concat]
    by_cases h1 : cfg.ClientName = "" <;> by_cases h2 : cfg.DeviceName = "" <;>
      by_cases h3 : cfg.DeviceID = "" <;> by_cases h4 : cfg.ClientVersion = "" <;>
      simp [HttpRequest.headerValue, List.find?, DefaultClientName, DefaultDeviceName,
        DefaultDeviceID, DefaultClientVersion, h1, h2, h3, h4]

theorem GetKeys_ok (c : Client) (b : String) (r : APIKeyQueryResult)
    (rest : List TransportResult) (sent : List HttpRequest) :
    c.GetKeys { pending := okKeys b r :: rest, sent := sent }
      = (.ok r,
         { pending := rest,
           sent := sent ++ [{ method := "GET", url := c.endpoint ++ "/Auth/Keys",
                              headers := [("Authorization",
                                "MediaBrowser Token=\"" ++ c.accessToken ++ "\"")] }] }) := by
  simp [Client.GetKeys, Client.doRequest, HttpState.exchange, okKeys]

theorem CreateKey_snd (c : Client) (appName : String) (s : HttpState) :
    (c.CreateKey appName s).snd
      = (c.doRequest "POST" ("/Auth/Keys?app=" ++ goQueryEscape appName) s).snd := by
  unfold Client.CreateKey
  rcases hd : c.doRequest "POST" ("/Auth/Keys?app=" ++ goQueryEscape appName) s with ⟨res, s1⟩
  cases res with
  | error e => simp [hd]
  | ok resp =>
    simp [hd]
    split <;> simp

theorem DeleteKey_snd (c : Client) (token : String) (s : HttpState) :
    (c.DeleteKey token s).snd
      = (c.doRequest "DELETE" ("/Auth/Keys/" ++ goPathEscape token) s).snd := by
  unfold Client.DeleteKey
  rcases hd : c.doRequest "DELETE" ("/Auth/Keys/" ++ goPathEscape token) s with ⟨res, s1⟩
  cases res with
  | error e => simp [hd]
  | ok resp =>
    simp [hd]
    split <;> simp

theorem GetKeys_snd (c : Client) (s : HttpState) :
    (c.GetKeys s).snd = (c.doRequest "GET" "/Auth/Keys" s).snd := by
  unfold Client.GetKeys
  rcases hd : c.doRequest "GET" "/Auth/Keys" s with ⟨res, s1⟩
  cases res with
  | error e => simp [hd]
  | ok resp =>
    simp [hd]
    split
    · split <;> rfl
    · rfl

theorem GetKey_snd (c : Client) (token : String) (s : HttpState) :
    (c.GetKey token s).snd = (c.GetKeys s).snd := by
  unfold Client.GetKey
  rcases hg : c.GetKeys s with ⟨res, s1⟩
  cases res <;> simp [hg]

theorem FindKeyByAppName_snd (c : Client) (appName : String) (s : HttpState) :
    (c.FindKeyByAppName appName s).snd = (c.GetKeys s).snd := by
  unfold Client.FindKeyByAppName
  rcases hg : c.GetKeys s with ⟨res, s1⟩
  cases res <;> simp [hg]

theorem find?_first_match {α} (p : α → Bool) (pre post : List α) (k : α)
    (hk : p k = true) (hpre : ∀ x ∈ pre, p x = false) :
    (pre ++ k :: post).find? p = some k := by
  induction pre with
  | nil => simp [List.find?_cons_of_pos _ hk]
  | cons a pre ih =>
    rw [List.cons_append, List.find?_cons_of_neg _ (by simp [hpre a (List.mem_cons_self a pre)])]
    exact ih fun x hx => hpre x (List.mem_cons_of_mem a hx)

/-- Claim C6: for every HTTP response, `CreateKey` and `DeleteKey` succeed
exactly when the status is 200 or 204, and every other status yields an
error carrying the status code and the response body text; `GetKeys`
yields such an error for every non-200 status (and on a 200 decodes the
body or reports a decode error). -/
theorem createKey_deleteKey_success_iff_200_or_204 :
    ∀ (c : Client) (appName token : String) (resp : HttpResponse)
      (rest : List TransportResult),
    ((c.CreateKey appName { pending := .response resp :: rest, sent := [] }).fst
        = if resp.statusCode = 204 ∨ resp.statusCode = 200 then .ok ()
          else .error ("API request failed with status " ++ toString resp.statusCode
            ++ ": " ++ resp.bodyText))
    ∧ ((c.DeleteKey token { pending := .response resp :: rest, sent := [] }).fst
        = if resp.statusCode = 204 ∨ resp.statusCode = 200 then .ok ()
          else .error ("API request failed with status " ++ toString resp.statusCode
            ++ ": " ++ resp.bodyText))
    ∧ ((c.GetKeys { pending := .response resp :: rest, sent := [] }).fst
        = if resp.statusCode = 200 then
            (match resp.shape with
             | .keysPayload r => .ok r
             | _ => .error "failed to decode response")
          else .error ("API request failed with status " ++ toString resp.statusCode
            ++ ": " ++ resp.bodyText)) := by
  intro c appName token resp rest
  refine ⟨?_, ?_, ?_⟩
  · by_cases h204 : resp.statusCode = 204 <;> by_cases h200 : resp.statusCode = 200 <;>
      simp [Client.CreateKey, Client.doRequest, HttpState.exchange, h204, h200]
  · by_cases h204 : resp.statusCode = 204 <;> by_cases h200 : resp.statusCode = 200 <;>
      simp [Client.DeleteKey, Client.doRequest, HttpState.exchange, h204, h200]
  · rcases resp with ⟨st, bt, sh⟩
    by_cases h200 : st = 200 <;> cases sh <;>
      simp [Client.GetKeys, Client.doRequest, HttpState.exchange, h200]

/-- Claim C2: `GetKey` (the name `GetKeyByAccessToken` of the spec) and
`FindKeyByAppName` return no value and no error when no list item matches
the access token (resp. app name), return the first matching item in list
order when one or more match, and propagate any `GetKeys` error
unchanged. -/
theorem getKey_findKey_first_match_or_none :
    ∀ (c : Client) (token appName : String),
    (∀ s e, (c.GetKeys s).fst = .error e →
      c.GetKey token s = (.error e, (c.GetKeys s).snd)
      ∧ c.FindKeyByAppName appName s = (.error e, (c.GetKeys s).snd))
    ∧ (∀ b r rest, (∀ k ∈ r.Items, k.AccessToken ≠ token) →
      (c.GetKey token { pending := okKeys b r :: rest, sent := [] }).fst = .ok none)
    ∧ (∀ b r rest, (∀ k ∈ r.Items, k.AppName ≠ appName) →
      (c.FindKeyByAppName appName { pending := okKeys b r :: rest, sent := [] }).fst
        = .ok none)
    ∧ (∀ b n i rest pre k post, k.AccessToken = token →
        (∀ k2 ∈ pre, k2.AccessToken ≠ token) →
      (c.GetKey token
          { pending := okKeys b ⟨pre ++ k :: post, n, i⟩ :: rest, sent := [] }).fst
        = .ok (some k))
    ∧ (∀ b n i rest pre k post, k.AppName = appName →
        (∀ k2 ∈ pre, k2.AppName ≠ appName) →
      (c.FindKeyByAppName appName
          { pending := okKeys b ⟨pre ++ k :: post, n, i⟩ :: rest, sent := [] }).fst
        = .ok (some k)) := by
  intro c token appName
  refine ⟨?_, ?_, ?_, ?_, ?_⟩
  · intro s e h
    rcases hg : c.GetKeys s with ⟨res, s1⟩
    rw [hg] at h
    cases res with
    | ok r => simp at h
    | error e2 =>
      simp at h
      subst h
      constructor <;> simp [Client.GetKey, Client.FindKeyByAppName, hg]
  · intro b r rest h
    have hn : r.Items.find? (fun key => key.AccessToken == token) = none :=
      List.find?_eq_none.mpr fun k hk => by simp [h k hk]
    simp [Client.GetKey, GetKeys_ok, hn]
  · intro b r rest h
    have hn : r.Items.find? (fun key => key.AppName == appName) = none :=
      List.find?_eq_none.mpr fun k hk => by simp [h k hk]
    simp [Client.FindKeyByAppName, GetKeys_ok, hn]
  · intro b n i rest pre k post hk hpre
    have hf : (pre ++ k :: post).find? (fun key => key.AccessToken == token) = some k :=
      find?_first_match _ pre post k (by simp [hk]) fun x hx => by simp [hpre x hx]
    simp [Client.GetKey, GetKeys_ok, hf]
  · intro b n i rest pre k post hk hpre
    have hf : (pre ++ k :: post).find? (fun key => key.AppName == appName) = some k :=
      find?_first_match _ pre post k (by simp [hk]) fun x hx => by simp [hpre x hx]
    simp [Client.FindKeyByAppName, GetKeys_ok, hf]

/-- Witness for the lookup claim: against a two-key list, looking up the
second token finds the second key, and a missing token finds nothing. -/
theorem getKey_findKey_first_match_or_none_witness :
    (sampleClient.GetKey "token-2"
        { pending := [okKeys "" (APIKeyQueryResult.mk
            [APIKey.mk 1 "token-1" "App One" "2024-01-01",
             APIKey.mk 2 "token-2" "App Two" "2024-01-02"] 2 0)], sent := [] }).fst
      = .ok (some (APIKey.mk 2 "token-2" "App Two" "2024-01-02"))
    ∧ (sampleClient.GetKey "missing"
        { pending := [okKeys "" (APIKeyQueryResult.mk
            [APIKey.mk 1 "token-1" "App One" "2024-01-01"] 1 0)], sent := [] }).fst
      = .ok none :=
  ⟨(getKey_findKey_first_match_or_none sampleClient "token-2" "App Two").2.2.2.1
      "" 2 0 [] [APIKey.mk 1 "token-1" "App One" "2024-01-01"]
      (APIKey.mk 2 "token-2" "App Two" "2024-01-02") [] rfl (by decide),
   (getKey_findKey_first_match_or_none sampleClient "missing" "App Two").2.1
      "" (APIKeyQueryResult.mk [APIKey.mk 1 "token-1" "App One" "2024-01-01"] 1 0) []
      (by decide)⟩

/-- Claim C7: `CreateKey` percent-encodes the app name as the `app` query
parameter so that standard query decoding recovers the literal byte string
(hence the literal string), and `DeleteKey` percent-encodes the access
token as a single path segment containing no `/` byte (47), so slashes in
the token introduce no additional path segments. -/
theorem createKey_deleteKey_percent_encoding :
    (∀ appName : String,
      unescapeQueryBytes (queryEscapeBytes (stringUTF8Bytes appName))
        = some (stringUTF8Bytes appName))
    ∧ (∀ (c : Client) (appName : String) (s : HttpState),
      (c.CreateKey appName s).snd.sent.getLast?
        = some { method := "POST",
                 url := c.endpoint ++ ("/Auth/Keys?app=" ++ goQueryEscape appName),
                 headers := [("Authorization",
                   "MediaBrowser Token=\"" ++ c.accessToken ++ "\"")] })
    ∧ (∀ token : String, (47 : Nat) ∉ pathEscapeBytes (stringUTF8Bytes token))
    ∧ (∀ (c : Client) (token : String) (s : HttpState),
      (c.DeleteKey token s).snd.sent.getLast?
        = some { method := "DELETE",
                 url := c.endpoint ++ ("/Auth/Keys/" ++ goPathEscape token),
                 headers := [("Authorization",
                   "MediaBrowser Token=\"" ++ c.accessToken ++ "\"")] }) := by
  refine ⟨?_, ?_, ?_, ?_⟩
  · exact fun appName => unescape_queryEscape _ (stringUTF8Bytes_lt appName)
  · intro c appName s
    rw [CreateKey_snd, doRequest_sent, List.getLast?_concat]
  · exact fun token => pathEscapeBytes_no_slash _
  · intro c token s
    rw [DeleteKey_snd, doRequest_sent, List.getLast?_concat]

/-- Claim C1: the resource-layer `Create` snapshots the `Id`s of the keys
listed before creation, calls `CreateKey`, re-fetches the list, and
selects as the created key the first key in list order whose `Id` is
absent from the snapshot and whose `AppName` equals the requested name:
the `AppName` match is a required conjunct on every candidate, not only a
tie-break among several new keys — the second conjunct shows a lone new
key with a different `AppName` is not selected. -/
theorem create_selects_first_new_key_with_appName :
    (∀ (c : Client) (appName b1 b2 : String) (r1 r2 : APIKeyQueryResult)
       (createResp : HttpResponse) (rest : List TransportResult),
      createResp.statusCode = 204 ∨ createResp.statusCode = 200 →
      (APIKeyResource.Create c appName
          { pending := [okKeys b1 r1, .response createResp, okKeys b2 r2] ++ rest,
            sent := [] }).fst
        = match r2.Items.find? (fun k =>
              !((r1.Items.map fun k2 => k2.Id).contains k.Id) && k.AppName == appName) with
          | some k => .success (APIKeyResourceModel.mk k.AccessToken appName
              k.AccessToken k.DateCreated)
          | none => .failure "Unable to find the newly created API key")
    ∧ (APIKeyResource.Create sampleClient "Wanted App"
        { pending := [okKeys "" (APIKeyQueryResult.mk [] 0 0),
            .response (HttpResponse.mk 204 "" .undecodable),
            okKeys "" (APIKeyQueryResult.mk [APIKey.mk 7 "tok-new" "Other App" "d"] 1 0)],
          sent := [] }).fst
      = .failure "Unable to find the newly created API key" := by
  constructor
  · intro c appName b1 b2 r1 r2 createResp rest hst
    rcases hst with h | h <;>
      (simp [APIKeyResource.Create, Client.CreateKey, Client.doRequest,
        HttpState.exchange, GetKeys_ok, h]
       split <;> rename_i heq <;> rw [heq])
  · decide

/-- Witness for the create-selection claim: with one pre-existing key, the
lone new key carrying the requested app name is selected and its fields
populate the state. -/
theorem create_selects_first_new_key_with_appName_witness :
    (APIKeyResource.Create sampleClient "App"
        { pending := [okKeys "" (APIKeyQueryResult.mk [APIKey.mk 1 "old" "App" "d0"] 1 0),
            .response (HttpResponse.mk 204 "" .undecodable),
            okKeys "" (APIKeyQueryResult.mk
              [APIKey.mk 1 "old" "App" "d0", APIKey.mk 2 "new" "App" "d1"] 2 0)],
          sent := [] }).fst
      = .success (APIKeyResourceModel.mk "new" "App" "new" "d1") := by
  have h := create_selects_first_new_key_with_appName.1 sampleClient "App" "" ""
    (APIKeyQueryResult.mk [APIKey.mk 1 "old" "App" "d0"] 1 0)
    (APIKeyQueryResult.mk
      [APIKey.mk 1 "old" "App" "d0", APIKey.mk 2 "new" "App" "d1"] 2 0)
    (HttpResponse.mk 204 "" .undecodable) [] (Or.inl rfl)
  simp only [List.append_nil] at h
  rw [h]
  decide

/-- Claim C10: if the resource-layer `Create` fails at the pre-creation
list, the `CreateKey` call, the post-creation list, or at locating a key
that is both new and carries the requested `AppName`, it reports an error
diagnostic; the `failure` outcome carries no state record, modelling that
the Go code returns before `resp.State.Set`, so no (and in particular no
partially-populated) resource state is written. -/
theorem create_failure_adds_error_and_writes_no_state :
    ∀ (c : Client) (appName msg b1 b2 : String) (r1 r2 : APIKeyQueryResult)
      (errResp : HttpResponse),
    ((APIKeyResource.Create c appName { pending := [.netFailure msg], sent := [] }).fst
        = .failure ("Unable to list existing API keys: "
            ++ ("failed to execute request: " ++ msg)))
    ∧ (errResp.statusCode ≠ 204 → errResp.statusCode ≠ 200 →
        (APIKeyResource.Create c appName
            { pending := [okKeys b1 r1, .response errResp], sent := [] }).fst
          = .failure ("Unable to create API key: "
              ++ ("API request failed with status " ++ toString errResp.statusCode
                  ++ ": " ++ errResp.bodyText)))
    ∧ ((APIKeyResource.Create c appName
          { pending := [okKeys b1 r1, .response (HttpResponse.mk 204 "" .undecodable),
              .netFailure msg], sent := [] }).fst
        = .failure ("Unable to list API keys after creation: "
            ++ ("failed to execute request: " ++ msg)))
    ∧ ((∀ k ∈ r2.Items, k.Id ∈ (r1.Items.map fun k2 => k2.Id) ∨ k.AppName ≠ appName) →
        (APIKeyResource.Create c appName
            { pending := [okKeys b1 r1, .response (HttpResponse.mk 204 "" .undecodable),
                okKeys b2 r2], sent := [] }).fst
          = .failure "Unable to find the newly created API key") := by
  intro c appName msg b1 b2 r1 r2 errResp
  refine ⟨?_, ?_, ?_, ?_⟩
  · simp [APIKeyResource.Create, Client.GetKeys, Client.doRequest, HttpState.exchange]
  · intro h204 h200
    simp [APIKeyResource.Create, Client.CreateKey, Client.doRequest,
      HttpState.exchange, GetKeys_ok, h204, h200]
  · simp [APIKeyResource.Create, Client.GetKeys, Client.CreateKey, Client.doRequest,
      HttpState.exchange, okKeys]
  · intro hnew
    simp [APIKeyResource.Create, Client.CreateKey, Client.doRequest,
      HttpState.exchange, GetKeys_ok]
    split <;> rename_i heq
    · rfl
    · have hm := List.mem_of_find?_eq_some heq
      have hp := List.find?_some heq
      simp at hp
      rcases hnew _ hm with hid | hname
      · rw [List.mem_map] at hid
        obtain ⟨a, ha, haid⟩ := hid
        exact (hp.1 a ha haid).elim
      · exact (hname hp.2).elim

/-- Witness for the create-failure claim: a 500 on the create call and a
lone new key with a different app name each produce the corresponding
error outcome. -/
theorem create_failure_adds_error_and_writes_no_state_witness :
    (APIKeyResource.Create sampleClient "app"
        { pending := [okKeys "" (APIKeyQueryResult.mk [] 0 0),
            .response (HttpResponse.mk 500 "boom" .undecodable)], sent := [] }).fst
      = .failure "Unable to create API key: API request failed with status 500: boom"
    ∧ (APIKeyResource.Create sampleClient "app"
        { pending := [okKeys "" (APIKeyQueryResult.mk [] 0 0),
            .response (HttpResponse.mk 204 "" .undecodable),
            okKeys "" (APIKeyQueryResult.mk [APIKey.mk 3 "t" "other" "d"] 1 0)],
          sent := [] }).fst
      = .failure "Unable to find the newly created API key" :=
  ⟨(create_failure_adds_error_and_writes_no_state sampleClient "app" "m" "" ""
      (APIKeyQueryResult.mk [] 0 0) (APIKeyQueryResult.mk [] 0 0)
      (HttpResponse.mk 500 "boom" .undecodable)).2.1 (by decide) (by decide),
   (create_failure_adds_error_and_writes_no_state sampleClient "app" "m" "" ""
      (APIKeyQueryResult.mk [] 0 0)
      (APIKeyQueryResult.mk [APIKey.mk 3 "t" "other" "d"] 1 0)
      (HttpResponse.mk 500 "boom" .undecodable)).2.2.2 (by decide)⟩

/-- Counterexample to claim C9 as stated: the resource-layer `Create` is a
public operation of the provider, yet on a successful run it issues three
HTTP requests (list, create, list), exceeding the claimed bound of two. -/
theorem each_public_op_at_most_two_requests_counterexample :
    (APIKeyResource.Create sampleClient "app"
        { pending := [okKeys "" (APIKeyQueryResult.mk [] 0 0),
            .response (HttpResponse.mk 204 "" .undecodable),
            okKeys "" (APIKeyQueryResult.mk [APIKey.mk 1 "tok" "app" "d"] 1 0)],
          sent := [] }).snd.sent.length = 3
    ∧ ¬ ((APIKeyResource.Create sampleClient "app"
        { pending := [okKeys "" (APIKeyQueryResult.mk [] 0 0),
            .response (HttpResponse.mk 204 "" .undecodable),
            okKeys "" (APIKeyQueryResult.mk [APIKey.mk 1 "tok" "app" "d"] 1 0)],
          sent := [] }).snd.sent.length ≤ 2) := by
  constructor
  · decide
  · decide

/-- Claim C9, amended: each client operation (`GetKeys`, `GetKey`,
`CreateKey`, `DeleteKey`, `FindKeyByAppName`) issues exactly one HTTP
request, but the resource-layer `Create` issues three sequential requests
(list, then create, then list again), so the create lifecycle exceeds two
round-trips. -/
theorem client_ops_one_request_resource_create_three :
    ∀ (c : Client) (token appName : String) (s : HttpState),
    ((c.GetKeys s).snd.sent.length = s.sent.length + 1)
    ∧ ((c.GetKey token s).snd.sent.length = s.sent.length + 1)
    ∧ ((c.CreateKey appName s).snd.sent.length = s.sent.length + 1)
    ∧ ((c.DeleteKey token s).snd.sent.length = s.sent.length + 1)
    ∧ ((c.FindKeyByAppName appName s).snd.sent.length = s.sent.length + 1)
    ∧ (∀ b1 b2 r1 r2 createResp rest,
        createResp.statusCode = 204 ∨ createResp.statusCode = 200 →
        (APIKeyResource.Create c appName
            { pending := [okKeys b1 r1, .response createResp, okKeys b2 r2] ++ rest,
              sent := [] }).snd.sent.length = 3) := by
  intro c token appName s
  refine ⟨?_, ?_, ?_, ?_, ?_, ?_⟩
  · rw [GetKeys_snd, doRequest_sent]
    simp
  · rw [GetKey_snd, GetKeys_snd, doRequest_sent]
    simp
  · rw [CreateKey_snd, doRequest_sent]
    simp
  · rw [DeleteKey_snd, doRequest_sent]
    simp
  · rw [FindKeyByAppName_snd, GetKeys_snd, doRequest_sent]
    simp
  · intro b1 b2 r1 r2 createResp rest hst
    rcases hst with h | h <;>
      (simp [APIKeyResource.Create, Client.CreateKey, Client.doRequest,
        HttpState.exchange, GetKeys_ok, h]
       split <;> simp)

/-- Witness for the amended request-count claim: a concrete successful
create run records exactly three requests. -/
theorem client_ops_one_request_resource_create_three_witness :
    (APIKeyResource.Create sampleClient "app"
        { pending := [okKeys "" (APIKeyQueryResult.mk [] 0 0),
            .response (HttpResponse.mk 200 "" .undecodable),
            okKeys "" (APIKeyQueryResult.mk [] 0 0)],
          sent := [] }).snd.sent.length = 3 := by
  have h := (client_ops_one_request_resource_create_three sampleClient "t" "app"
      (HttpState.mk [] [])).2.2.2.2.2 "" "" (APIKeyQueryResult.mk [] 0 0)
      (APIKeyQueryResult.mk [] 0 0) (HttpResponse.mk 200 "" .undecodable) []
      (Or.inr rfl)
  simpa using h

/-- Claim C8: the data-source `Read` fails with a `Missing Required
Attribute` diagnostic exactly when neither `app_name` nor `access_token`
carries a value (issuing no request and leaving the transport state
untouched); when an access token is supplied — also when both attributes
are — it looks up by access token, and when only an app name is supplied
it looks up by app name, mapping a client error, absence, and a found key
to the corresponding diagnostic or populated state. -/
theorem dataSource_read_requires_name_or_token :
    ∀ (c : Client) (an atk : TFString) (s : HttpState),
    (an.isKnownValue = false → atk.isKnownValue = false →
      APIKeyDataSource.Read c an atk s
        = (.failure "Missing Required Attribute"
            "Either 'app_name' or 'access_token' must be provided to look up an API key.",
           s))
    ∧ (∀ tok, APIKeyDataSource.Read c an (.value tok) s
        = ((match (c.GetKey tok s).fst with
            | .error e => .failure "Client Error" ("Unable to read API key: " ++ e)
            | .ok none => .failure "API Key Not Found" "The specified API key was not found."
            | .ok (some k) => .success (APIKeyDataSourceModel.mk k.AccessToken k.AppName
                k.AccessToken k.DateCreated)),
           (c.GetKey tok s).snd))
    ∧ (∀ name, atk.isKnownValue = false →
      APIKeyDataSource.Read c (.value name) atk s
        = ((match (c.FindKeyByAppName name s).fst with
            | .error e => .failure "Client Error" ("Unable to read API key: " ++ e)
            | .ok none => .failure "API Key Not Found" "The specified API key was not found."
            | .ok (some k) => .success (APIKeyDataSourceModel.mk k.AccessToken k.AppName
                k.AccessToken k.DateCreated)),
           (c.FindKeyByAppName name s).snd)) := by
  intro c an atk s
  refine ⟨?_, ?_, ?_⟩
  · intro h1 h2
    simp [APIKeyDataSource.Read, h1, h2]
  · intro tok
    rcases hg : c.GetKey tok s with ⟨res, s1⟩
    cases res with
    | error e =>
      simp [APIKeyDataSource.Read, TFString.isKnownValue, TFString.valueString,
        Client.GetKeyByAccessToken, hg]
    | ok k? =>
      cases k? <;>
        simp [APIKeyDataSource.Read, TFString.isKnownValue, TFString.valueString,
          Client.GetKeyByAccessToken, hg]
  · intro name h2
    cases atk with
    | value s2 => simp [TFString.isKnownValue] at h2
    | null =>
      rcases hg : c.FindKeyByAppName name s with ⟨res, s1⟩
      cases res with
      | error e =>
        simp [APIKeyDataSource.Read, TFString.isKnownValue, TFString.valueString, hg]
      | ok k? =>
        cases k? <;>
          simp [APIKeyDataSource.Read, TFString.isKnownValue, TFString.valueString, hg]
    | unknown =>
      rcases hg : c.FindKeyByAppName name s with ⟨res, s1⟩
      cases res with
      | error e =>
        simp [APIKeyDataSource.Read, TFString.isKnownValue, TFString.valueString, hg]
      | ok k? =>
        cases k? <;>
          simp [APIKeyDataSource.Read, TFString.isKnownValue, TFString.valueString, hg]

/-- Witness for the data-source read claim: with neither attribute set the
read fails with the missing-attribute diagnostic, and with both set it
looks up by access token and succeeds. -/
theorem dataSource_read_requires_name_or_token_witness :
    APIKeyDataSource.Read sampleClient .null .unknown (HttpState.mk [] [])
      = (.failure "Missing Required Attribute"
          "Either 'app_name' or 'access_token' must be provided to look up an API key.",
         HttpState.mk [] [])
    ∧ (APIKeyDataSource.Read sampleClient (.value "App One") (.value "token-1")
        { pending := [okKeys ""
            (APIKeyQueryResult.mk [APIKey.mk 1 "token-1" "App One" "d"] 1 0)],
          sent := [] }).fst
      = .success (APIKeyDataSourceModel.mk "token-1" "App One" "token-1" "d") := by
  constructor
  · exact (dataSource_read_requires_name_or_token sampleClient .null .unknown
      (HttpState.mk [] [])).1 rfl rfl
  · have h := (dataSource_read_requires_name_or_token sampleClient (.value "App One")
      (.value "token-1")
      { pending := [okKeys ""
          (APIKeyQueryResult.mk [APIKey.mk 1 "token-1" "App One" "d"] 1 0)],
        sent := [] }).2.1 "token-1"
    rw [h]
    decide

end Jellyfin
